import Mathlib

/-!
Verification development for `internal/web/templates.go` of the glasskube
web UI: the template registry (`parseTemplates`, `pageTmpl`,
`componentTmpl`), the template-function library (`Reversed`, `Markdown`,
`AutoUpdateEnabled`, `IsSuspended`, `PackageManifestUrl`), the filesystem
watcher (`watchTemplates`) and the goldmark AST post-processing pass
(`ASTTransformer.Transform`).

Go values, reflection and the goldmark/fsnotify libraries are shallowly
embedded: machine-level behaviour that the Go code relies on (nil-interface
method calls panicking, `reflect.TypeOf(nil) = nil`, the shape of
`ast.Walk`) is written into the definitions and documented there.
-/

/-! ## The `Reversed` template function

`Reversed` (templates.go lines 122-138) takes an `any` parameter, computes
`reflect.TypeOf(param).Kind()`, and for `Slice`/`Array` kinds builds a fresh
`[]interface{}` `newVal` with `newVal[ln-i-1] = val.Index(i).Interface()`;
every other kind falls through to `return param`.

A Go `any` value is modelled by `GoVal`: `nilv` is the nil interface value,
`slice`/`array` carry their element sequence, and `nonseq k` stands for any
value of some other reflect kind `k`. -/

inductive GoVal where
  | nilv : GoVal
  | slice : List GoVal → GoVal
  | array : List GoVal → GoVal
  | nonseq : Nat → GoVal

/-- Reflect kinds as far as `Reversed` distinguishes them: `Slice`, `Array`,
and every other kind collapsed into `other` with a numeric tag. -/
inductive GoKind where
  | slice : GoKind
  | array : GoKind
  | other : Nat → GoKind
deriving DecidableEq

/-- Models `reflect.TypeOf(param)` followed by `.Kind()` lookup on the
resulting `reflect.Type`: for a non-nil interface value it yields the kind of
the dynamic type; for the nil interface `reflect.TypeOf` returns a nil
`reflect.Type`, modelled as `none` (the subsequent `Kind()` call is the
panic handled in `Reversed` below). -/
def reflectKind : GoVal → Option GoKind
  | .nilv => none
  | .slice _ => some .slice
  | .array _ => some .array
  | .nonseq k => some (.other k)

/-- State of the copy loop inside `Reversed`: `val` models the reflected
input sequence (read, never written, by the loop body) and `newVal` models
the freshly allocated `[]interface{}` that the body writes. -/
structure RevState where
  val : List GoVal
  newVal : List GoVal

/-- One iteration `newVal[ln-i-1] = val.Index(i).Interface()` of the loop in
`Reversed`, acting on the whole state: it reads `val` and writes only
`newVal`. A (never exercised) out-of-range index leaves the nil entry, which
is what `getD .nilv` returns. -/
def revLoopBody (s : RevState) (i : Nat) : RevState :=
  { s with newVal := s.newVal.set (s.val.length - i - 1) (s.val.getD i .nilv) }

/-- The full loop `for i := 0; i < ln; i++ { ... }` of `Reversed`, started
from the state just after `newVal := make([]interface{}, ln)` — a fresh
slice of `ln` nil interface entries. -/
def revLoopGo (val : List GoVal) : RevState :=
  (List.range val.length).foldl revLoopBody ⟨val, List.replicate val.length .nilv⟩

/-- The `Reversed` entry of the template function map (templates.go
122-138). The `Except` result records the one way the Go code can fail:
`param = nil` makes `reflect.TypeOf` return a nil `reflect.Type`, and the
`Kind()` method call on that nil value panics (Go run-time semantics);
every other input returns normally. -/
def Reversed (param : GoVal) : Except String GoVal :=
  match reflectKind param with
  | none => .error "runtime error: invalid memory address or nil pointer dereference"
  | some .slice =>
    match param with
    | .slice es => .ok (.slice (revLoopGo es).newVal)
    | _ => .ok param
  | some .array =>
    match param with
    | .array es => .ok (.slice (revLoopGo es).newVal)
    | _ => .ok param
  | some (.other _) => .ok param

/-- The element sequence of a slice or array value, `none` otherwise. -/
def seqElems : GoVal → Option (List GoVal)
  | .slice es => some es
  | .array es => some es
  | _ => none

/-! Closed-form characterisation of the copy loop. -/

theorem revLoopBody_val (s : RevState) (i : Nat) : (revLoopBody s i).val = s.val := rfl

theorem revLoop_foldl_val (l : List Nat) (s : RevState) :
    (l.foldl revLoopBody s).val = s.val := by
  induction l generalizing s with
  | nil => rfl
  | cons i l ih => simpa [List.foldl_cons, revLoopBody] using ih (revLoopBody s i)

theorem revLoopGo_val (val : List GoVal) : (revLoopGo val).val = val := by
  simpa [revLoopGo] using revLoop_foldl_val (List.range val.length) _

theorem replicate_set_last (m : Nat) (hm : 0 < m) (a x : GoVal) :
    (List.replicate m a).set (m - 1) x = List.replicate (m - 1) a ++ [x] := by
  induction m with
  | zero => cases hm
  | succ m ih =>
    cases m with
    | zero => rfl
    | succ m =>
      simp only [List.replicate_succ, List.set, Nat.succ_sub_one] at *
      rw [ih (Nat.succ_pos m)]
      simp [List.replicate_succ]

theorem set_append_left {α : Type} (l₁ l₂ : List α) (i : Nat) (x : α)
    (h : i < l₁.length) : (l₁ ++ l₂).set i x = l₁.set i x ++ l₂ := by
  induction l₁ generalizing i with
  | nil => cases h
  | cons a l ih =>
    cases i with
    | zero => rfl
    | succ i =>
      simp only [List.cons_append, List.set]
      exact congrArg (List.cons a) (ih i (by simpa using Nat.lt_of_succ_lt_succ h))

/-- Invariant of the copy loop: after the first `k` iterations the fresh
slice holds the reversed first `k` input elements in its last `k` slots and
nil entries before them. -/
theorem revLoop_invariant (val : List GoVal) (k : Nat) (hk : k ≤ val.length) :
    ((List.range k).foldl revLoopBody ⟨val, List.replicate val.length .nilv⟩).newVal
      = List.replicate (val.length - k) GoVal.nilv ++ (val.take k).reverse := by
  induction k with
  | zero => simp
  | succ k ih =>
    have hk' : k ≤ val.length := Nat.le_of_succ_le hk
    have hklt : k < val.length := hk
    rw [List.range_succ, List.foldl_append, List.foldl_cons, List.foldl_nil]
    rw [revLoopBody]
    rw [revLoop_foldl_val, ih hk']
    have hlenrep : val.length - k - 1 < (List.replicate (val.length - k) GoVal.nilv).length := by
      simp only [List.length_replicate]
      exact Nat.sub_lt (Nat.sub_pos_of_lt hklt) Nat.one_pos
    rw [set_append_left _ _ _ _ hlenrep]
    rw [replicate_set_last (val.length - k) (Nat.sub_pos_of_lt hklt)]
    have hgetD : val.getD k GoVal.nilv = val[k] := by
      simp [List.getD_eq_getElem?_getD, List.getElem?_eq_getElem hklt]
    have htake : val.take (k + 1) = val.take k ++ [val[k]] := by
      rw [List.take_succ, List.getElem?_eq_getElem hklt]
      rfl
    rw [hgetD, htake]
    simp only [Nat.sub_sub, List.append_assoc, List.reverse_append, List.reverse_cons,
      List.reverse_nil, List.nil_append, List.singleton_append]

/-- The loop computes exactly `List.reverse` of the input elements. -/
theorem revLoopGo_newVal (val : List GoVal) : (revLoopGo val).newVal = val.reverse := by
  have h := revLoop_invariant val val.length (Nat.le_refl _)
  simpa [revLoopGo, Nat.sub_self] using h

theorem Reversed_slice (es : List GoVal) :
    Reversed (.slice es) = .ok (.slice es.reverse) := by
  show Except.ok (GoVal.slice (revLoopGo es).newVal) = _
  rw [revLoopGo_newVal]

theorem Reversed_array (es : List GoVal) :
    Reversed (.array es) = .ok (.slice es.reverse) := by
  show Except.ok (GoVal.slice (revLoopGo es).newVal) = _
  rw [revLoopGo_newVal]

theorem Reversed_nonseq (k : Nat) : Reversed (.nonseq k) = .ok (.nonseq k) := rfl

/-! ## The `Markdown` template function (error path)

`Markdown` (templates.go 102-121) builds a goldmark converter and calls
`converter.Convert([]byte(source), &buf)`; on any error it returns
`template.HTML("<p>" + source + "</p>")`, otherwise the buffer contents. -/

/-- Models the `Markdown` entry of the function map. `goldmarkConvert`
abstracts the external `converter.Convert` call (goldmark with the Linkify
extension and the prioritized `ASTTransformer`): it yields the rendered
HTML or an error. The body mirrors the Go code exactly: a conversion error
is swallowed and replaced by the paragraph-wrapped raw source; the function
itself cannot fail. -/
def Markdown (goldmarkConvert : String → Except String String) (source : String) : String :=
  match goldmarkConvert source with
  | .error _ => "<p>" ++ source ++ "</p>"
  | .ok html => html

/-- Claim C2: for every markdown source on which conversion returns an
error, `Markdown` returns exactly the original source text wrapped as
`<p>` + source + `</p>`, with no attributes injected and no escaping
applied, and never propagates the failure (its result type is a plain
string, not an error). -/
theorem claim_C2_markdown_error_fallback
    (goldmarkConvert : String → Except String String) (source e : String)
    (h : goldmarkConvert source = .error e) :
    Markdown goldmarkConvert source = "<p>" ++ source ++ "</p>" := by
  simp [Markdown, h]

/-- Witness for C2 at a concrete failing conversion and a source string
containing HTML metacharacters: the output embeds the source verbatim
(no escaping), wrapped in one paragraph tag. -/
theorem claim_C2_witness :
    (fun _ : String => (Except.error "forced failure" : Except String String)) "a <b> & \"q\""
      = Except.error "forced failure" ∧
    Markdown (fun _ => Except.error "forced failure") "a <b> & \"q\""
      = "<p>a <b> & \"q\"</p>" :=
  ⟨rfl, claim_C2_markdown_error_fallback _ "a <b> & \"q\"" "forced failure" rfl⟩

/-! ## Claims about `Reversed` -/

/-- Claim C3: for a slice or array input, applying `Reversed` twice yields a
sequence element-wise equal to the original (an involution on sequences);
for an input of any other (non-sequence) reflect kind, `Reversed` returns
the input unchanged — an identity fallback, not an error. -/
theorem claim_C3_reversed_involution_and_identity :
    (∀ (v : GoVal) (es : List GoVal), seqElems v = some es →
      (Reversed v).bind Reversed = .ok (.slice es)) ∧
    (∀ (v : GoVal) (k : Nat), reflectKind v = some (.other k) →
      Reversed v = .ok v) := by
  constructor
  · intro v es h
    cases v with
    | nilv => cases h
    | slice a =>
      have ha : a = es := by simpa [seqElems] using h
      subst ha
      rw [Reversed_slice]
      show Reversed (GoVal.slice a.reverse) = _
      rw [Reversed_slice, List.reverse_reverse]
    | array a =>
      have ha : a = es := by simpa [seqElems] using h
      subst ha
      rw [Reversed_array]
      show Reversed (GoVal.slice a.reverse) = _
      rw [Reversed_slice, List.reverse_reverse]
    | nonseq t => cases h
  · intro v k h
    cases v with
    | nilv => cases h
    | slice es' => cases h
    | array es' => cases h
    | nonseq t => exact rfl

/-- Witness for C3: a concrete two-element slice reversed twice gives back
its elements in order, and a concrete non-sequence value passes through. -/
theorem claim_C3_witness :
    seqElems (GoVal.slice [GoVal.nonseq 1, GoVal.nonseq 2])
      = some [GoVal.nonseq 1, GoVal.nonseq 2] ∧
    (Reversed (GoVal.slice [GoVal.nonseq 1, GoVal.nonseq 2])).bind Reversed
      = Except.ok (GoVal.slice [GoVal.nonseq 1, GoVal.nonseq 2]) ∧
    reflectKind (GoVal.nonseq 7) = some (GoKind.other 7) ∧
    Reversed (GoVal.nonseq 7) = Except.ok (GoVal.nonseq 7) :=
  ⟨rfl, claim_C3_reversed_involution_and_identity.1 _ _ rfl, rfl,
    claim_C3_reversed_involution_and_identity.2 _ 7 rfl⟩

/-- Claim C9: `Reversed` is not total on the nil input — `reflect.TypeOf`
returns a nil `reflect.Type` there and the `Kind()` call panics — so the
identity fallback for non-sequence inputs only holds under the precondition
that the input is a non-nil value. -/
theorem claim_C9_reversed_nil_not_total :
    (∀ r, Reversed GoVal.nilv ≠ Except.ok r) ∧
    (∀ (v : GoVal) (k : Nat), v ≠ GoVal.nilv → reflectKind v = some (.other k) →
      Reversed v = .ok v) := by
  constructor
  · intro r h
    cases h
  · intro v k _ h
    cases v with
    | nilv => cases h
    | slice es' => cases h
    | array es' => cases h
    | nonseq t => exact rfl

/-- Witness for C9: the nil input does not return normally, while the
concrete non-nil non-sequence value `nonseq 0` passes through unchanged. -/
theorem claim_C9_witness :
    Reversed GoVal.nilv ≠ Except.ok GoVal.nilv ∧
    Reversed (GoVal.nonseq 0) = Except.ok (GoVal.nonseq 0) :=
  ⟨claim_C9_reversed_nil_not_total.1 _,
    claim_C9_reversed_nil_not_total.2 _ 0 (fun h => GoVal.noConfusion h) rfl⟩

/-- Claim C10: for every slice or array input, `Reversed` returns a freshly
allocated sequence (the loop output `newVal`, built from a fresh all-nil
slice) of the same length, whose entry `i` is entry `n-1-i` of the input,
and the loop never writes the input sequence (`val` is unchanged in the
final loop state). -/
theorem claim_C10_reversed_fresh_copy (v : GoVal) (es : List GoVal)
    (h : seqElems v = some es) :
    Reversed v = .ok (.slice ((revLoopGo es).newVal)) ∧
    (revLoopGo es).val = es ∧
    (revLoopGo es).newVal.length = es.length ∧
    ∀ i, i < es.length → (revLoopGo es).newVal[i]? = es[es.length - 1 - i]? := by
  have hrev : (revLoopGo es).newVal = es.reverse := revLoopGo_newVal es
  refine ⟨?_, revLoopGo_val es, by rw [hrev, List.length_reverse], ?_⟩
  · cases v with
    | nilv => cases h
    | slice es' => cases h; exact rfl
    | array es' => cases h; exact rfl
    | nonseq t => cases h
  · intro i hi
    rw [hrev]
    exact List.getElem?_reverse hi

/-- Witness for C10 at a concrete three-element slice. -/
theorem claim_C10_witness :
    seqElems (GoVal.slice [GoVal.nonseq 1, GoVal.nonseq 2, GoVal.nonseq 3])
      = some [GoVal.nonseq 1, GoVal.nonseq 2, GoVal.nonseq 3] ∧
    Reversed (GoVal.slice [GoVal.nonseq 1, GoVal.nonseq 2, GoVal.nonseq 3])
      = Except.ok (.slice ((revLoopGo [GoVal.nonseq 1, GoVal.nonseq 2, GoVal.nonseq 3]).newVal)) ∧
    (revLoopGo [GoVal.nonseq 1, GoVal.nonseq 2, GoVal.nonseq 3]).val
      = [GoVal.nonseq 1, GoVal.nonseq 2, GoVal.nonseq 3] :=
  ⟨rfl,
    (claim_C10_reversed_fresh_copy (GoVal.slice [GoVal.nonseq 1, GoVal.nonseq 2, GoVal.nonseq 3])
      [GoVal.nonseq 1, GoVal.nonseq 2, GoVal.nonseq 3] rfl).1,
    (claim_C10_reversed_fresh_copy (GoVal.slice [GoVal.nonseq 1, GoVal.nonseq 2, GoVal.nonseq 3])
      [GoVal.nonseq 1, GoVal.nonseq 2, GoVal.nonseq 3] rfl).2.1⟩

/-! ## The template file watcher (`watchTemplates`, templates.go 65-81)

The Go code creates an fsnotify watcher, registers the three template
directories, combines the four errors with `multierr.Combine`, and only
when the combined error is nil starts the goroutine
`for range watcher.Events { t.parseTemplates() }`; the combined error is
returned either way. -/

/-- Operation kinds of an fsnotify event. -/
inductive FsOp where
  | create | write | remove | rename | chmod
deriving DecidableEq

/-- A filesystem notification event as delivered on `watcher.Events`: an
operation and the affected path. The source's event loop reads neither
field (`for range watcher.Events`). -/
structure FsEvent where
  op : FsOp
  name : String
deriving DecidableEq

/-- The only call the goroutine body can perform. -/
inductive LoopCall where
  | parseTemplatesCall
deriving DecidableEq

/-- Models the goroutine body `for range watcher.Events { t.parseTemplates() }`
over the sequence of delivered events: one `parseTemplates` call per event,
with no inspection of the event's operation or path, no debouncing and no
coalescing. -/
def eventLoop : List FsEvent → List LoopCall
  | [] => []
  | _ :: rest => LoopCall.parseTemplatesCall :: eventLoop rest

/-- Models `multierr.Combine`: nil when every argument is nil, otherwise the
aggregation of the non-nil errors. -/
def multierrCombine (errs : List (Option String)) : Option (List String) :=
  match errs.filterMap id with
  | [] => none
  | e => some e

/-- Outcomes of the four fallible steps of `watchTemplates`, in source
order: `fsnotify.NewWatcher()` and the three `watcher.Add` registrations
(components directory, layout directory, pages directory). `none` means
the step succeeded. -/
structure WatcherEnv where
  newWatcherErr : Option String
  addComponentsErr : Option String
  addLayoutErr : Option String
  addPagesErr : Option String

/-- Models `watchTemplates`: the four errors are combined with
`multierr.Combine`; the event-consuming goroutine is started only under
`if err == nil`. Returns the combined error and whether the goroutine was
started. -/
def watchTemplates (w : WatcherEnv) : Option (List String) × Bool :=
  let err := multierrCombine
    [w.newWatcherErr, w.addComponentsErr, w.addLayoutErr, w.addPagesErr]
  match err with
  | none => (none, true)
  | some es => (some es, false)

/-- Number of `parseTemplates` calls a list of delivered events causes:
events are consumed only if the goroutine was started; otherwise nothing
reads `watcher.Events` and no recompilation ever runs. -/
def recompilesTriggered (started : Bool) (events : List FsEvent) : Nat :=
  if started then (eventLoop events).length else 0

/-- Claim C4 counterexample: registration of the layout directory fails
while the components directory registers fine; `watchTemplates` does return
the combined error, but a subsequent write event under the successfully
registered components directory triggers zero recompilations — the
goroutine that would consume `watcher.Events` is never started
(`if err == nil` guards it), contradicting the claim that watchers for
succeeded directories still trigger recompilation. -/
theorem claim_C4_counterexample :
    (watchTemplates ⟨none, none, some "permission denied", none⟩).1
      = some ["permission denied"] ∧
    recompilesTriggered (watchTemplates ⟨none, none, some "permission denied", none⟩).2
      [⟨FsOp.write, "internal/web/templates/components/toast.html"⟩] = 0 :=
  ⟨rfl, rfl⟩

/-- Claim C4 as amended: whenever any registration step fails,
`watchTemplates` returns the aggregated error of all registration attempts,
but the event-handling goroutine is not started, so no filesystem event —
in failed or succeeded directories alike — triggers a recompilation. -/
theorem claim_C4_amended_no_loop_on_error (w : WatcherEnv)
    (h : w.addComponentsErr ≠ none ∨ w.addLayoutErr ≠ none ∨ w.addPagesErr ≠ none) :
    (watchTemplates w).1
      = some (([w.newWatcherErr, w.addComponentsErr, w.addLayoutErr,
          w.addPagesErr]).filterMap id) ∧
    (watchTemplates w).2 = false ∧
    ∀ events, recompilesTriggered (watchTemplates w).2 events = 0 := by
  obtain ⟨nw, ac, al, ap⟩ := w
  cases nw <;> cases ac <;> cases al <;> cases ap <;>
    simp_all [watchTemplates, multierrCombine, recompilesTriggered]

/-- Witness for the amended C4 at a concrete failing registration and a
concrete event. -/
theorem claim_C4_witness :
    (watchTemplates ⟨none, some "EACCES", none, none⟩).1 = some ["EACCES"] ∧
    (watchTemplates ⟨none, some "EACCES", none, none⟩).2 = false ∧
    recompilesTriggered (watchTemplates ⟨none, some "EACCES", none, none⟩).2
      [⟨FsOp.write, "internal/web/templates/pages/support.html"⟩] = 0 := by
  have h := claim_C4_amended_no_loop_on_error ⟨none, some "EACCES", none, none⟩
    (Or.inl (by simp))
  exact ⟨h.1, h.2.1, h.2.2 _⟩

/-- Claim C5: each event received on the watcher's channel causes exactly
one `parseTemplates` call — the run of the loop over any event list has one
call per event, every performed call is a full `parseTemplates`, and the
loop's behaviour is independent of the event's operation and path (no
filtering, debouncing or coalescing). -/
theorem claim_C5_one_recompile_per_event (events : List FsEvent) :
    (eventLoop events).length = events.length ∧
    (∀ i, i < events.length →
      (eventLoop events)[i]? = some LoopCall.parseTemplatesCall) ∧
    (∀ (e e' : FsEvent) (rest : List FsEvent),
      eventLoop (e :: rest) = eventLoop (e' :: rest)) := by
  refine ⟨?_, ?_, fun e e' rest => rfl⟩
  · induction events with
    | nil => rfl
    | cons e rest ih => simpa [eventLoop] using ih
  · intro i hi
    induction events generalizing i with
    | nil => cases hi
    | cons e rest ih =>
      cases i with
      | zero => simp [eventLoop]
      | succ j => simpa [eventLoop] using ih j (Nat.lt_of_succ_lt_succ hi)

/-- Witness for C5 at a concrete two-event run mixing operations and paths:
two calls result, and the first slot is a `parseTemplates` call; a create
and a chmod event produce identical loop behaviour. -/
theorem claim_C5_witness :
    (eventLoop [⟨FsOp.create, "x.html"⟩, ⟨FsOp.remove, "y.html"⟩]).length
      = [(⟨FsOp.create, "x.html"⟩ : FsEvent), ⟨FsOp.remove, "y.html"⟩].length ∧
    (eventLoop [⟨FsOp.create, "x.html"⟩, ⟨FsOp.remove, "y.html"⟩])[0]?
      = some LoopCall.parseTemplatesCall ∧
    eventLoop [(⟨FsOp.create, "x.html"⟩ : FsEvent)]
      = eventLoop [(⟨FsOp.chmod, "z.html"⟩ : FsEvent)] := by
  have h := claim_C5_one_recompile_per_event
    [⟨FsOp.create, "x.html"⟩, ⟨FsOp.remove, "y.html"⟩]
  exact ⟨h.1, h.2.1 0 (by decide),
    (claim_C5_one_recompile_per_event []).2.2 ⟨FsOp.create, "x.html"⟩ ⟨FsOp.chmod, "z.html"⟩ []⟩

/-! ## Package-handle helpers (templates.go 88-97, 151-162)

`ctrlpkg.Package` is an interface: a handle is either the nil interface
value (`none`) or a concrete object (`some`), which may itself be a typed
nil reported by its `IsNil()` accessor. -/

/-- The read accessors of a non-nil `ctrlpkg.Package` handle used by
templates.go: `IsNil()`, `GetSpec().Suspend`, `AutoUpdatesEnabled()`, and
`GetSpec().PackageInfo.Name` / `.Version`. -/
structure PkgHandle where
  isNil : Bool
  suspend : Bool
  autoUpdatesEnabled : Bool
  infoName : String
  infoVersion : String
deriving DecidableEq

/-- Models `AutoUpdateEnabled` (templates.go 151-156):
`if pkg != nil && !pkg.IsNil() { return pkg.AutoUpdatesEnabled() }` and
`return false` otherwise. The `pkg != nil` guard makes the nil interface
safe here. -/
def AutoUpdateEnabled (pkg : Option PkgHandle) : Bool :=
  match pkg with
  | some p => if !p.isNil then p.autoUpdatesEnabled else false
  | none => false

/-- Models `IsSuspended` (templates.go 157-162), with the same
`pkg != nil && !pkg.IsNil()` guard around `pkg.GetSpec().Suspend`. -/
def IsSuspended (pkg : Option PkgHandle) : Bool :=
  match pkg with
  | some p => if !p.isNil then p.suspend else false
  | none => false

/-- Models `PackageManifestUrl` (templates.go 88-97). `repoLookup` abstracts
the external `t.repoClientset.ForPackage(pkg).GetPackageManifestURL(name,
version)` call. Unlike the two predicates, the Go code calls `pkg.IsNil()`
without a `pkg != nil` guard, and a method call through the nil interface
panics (Go run-time semantics), modelled as `.error`; a lookup error falls
through to `return ""`. -/
def PackageManifestUrl (repoLookup : String → String → Except String String)
    (pkg : Option PkgHandle) : Except String String :=
  match pkg with
  | none => .error "runtime error: invalid memory address or nil pointer dereference"
  | some p =>
    if !p.isNil then
      match repoLookup p.infoName p.infoVersion with
      | .ok url => .ok url
      | .error _ => .ok ""
    else .ok ""

/-- Claim C6 counterexample: on the nil interface handle,
`PackageManifestUrl` does not return the empty string — the unguarded
`pkg.IsNil()` call fails — even with a repository lookup that would
succeed, contradicting the claim for the "handle is nil" case. -/
theorem claim_C6_counterexample :
    PackageManifestUrl (fun _ _ => .ok "https://repo.invalid/manifest.yaml") none
      ≠ .ok "" :=
  fun h => Except.noConfusion h

/-- Claim C6 as amended: the predicates return `false` for a nil handle or
one whose `IsNil()` reports true; `PackageManifestUrl` returns the empty
string when the handle is non-nil but empty (`IsNil()` true) or when the
repository lookup errors — the nil interface handle alone is outside its
guarantee, since its `IsNil()` call is unguarded. -/
theorem claim_C6_amended_safe_defaults
    (repoLookup : String → String → Except String String)
    (pkg : Option PkgHandle) :
    ((pkg = none ∨ ∃ p, pkg = some p ∧ p.isNil = true) →
      AutoUpdateEnabled pkg = false ∧ IsSuspended pkg = false) ∧
    (∀ p, pkg = some p → p.isNil = true →
      PackageManifestUrl repoLookup pkg = .ok "") ∧
    (∀ p e, pkg = some p → p.isNil = false →
      repoLookup p.infoName p.infoVersion = .error e →
      PackageManifestUrl repoLookup pkg = .ok "") := by
  refine ⟨?_, ?_, ?_⟩
  · rintro (rfl | ⟨p, rfl, hp⟩)
    · exact ⟨rfl, rfl⟩
    · simp [AutoUpdateEnabled, IsSuspended, hp]
  · rintro p rfl hp
    simp [PackageManifestUrl, hp]
  · rintro p e rfl hp hr
    simp [PackageManifestUrl, hp, hr]

/-- Witness for the amended C6: concrete nil handle, empty (typed-nil)
handle, and failing repository lookup all yield the safe defaults. -/
theorem claim_C6_witness :
    AutoUpdateEnabled none = false ∧
    IsSuspended none = false ∧
    AutoUpdateEnabled (some ⟨true, true, true, "argo-cd", "v2.11.0"⟩) = false ∧
    PackageManifestUrl (fun _ _ => .ok "u") (some ⟨true, false, false, "argo-cd", "v2.11.0"⟩)
      = .ok "" ∧
    PackageManifestUrl (fun _ _ => .error "connection refused")
      (some ⟨false, false, false, "argo-cd", "v2.11.0"⟩) = .ok "" := by
  have h1 := claim_C6_amended_safe_defaults (fun _ _ => Except.ok "u") none
  have h2 := claim_C6_amended_safe_defaults (fun _ _ => Except.ok "u")
    (some ⟨true, true, true, "argo-cd", "v2.11.0"⟩)
  have h3 := claim_C6_amended_safe_defaults (fun _ _ => Except.ok "u")
    (some ⟨true, false, false, "argo-cd", "v2.11.0"⟩)
  have h4 := claim_C6_amended_safe_defaults (fun _ _ => Except.error "connection refused")
    (some ⟨false, false, false, "argo-cd", "v2.11.0"⟩)
  exact ⟨(h1.1 (Or.inl rfl)).1, (h1.1 (Or.inl rfl)).2,
    (h2.1 (Or.inr ⟨_, rfl, rfl⟩)).1,
    h3.2.1 _ rfl rfl,
    h4.2.2 _ "connection refused" rfl rfl rfl⟩

/-! ## Template composition (`parseTemplates`, `pageTmpl`, `componentTmpl`,
templates.go 165-204)

A parsed `html/template` value is tracked by the name it was created with,
whether the function map was attached, and the source files parsed into it
in order. `template.Must` aborts the process on error and otherwise passes
the template through, so it does not appear in the model; the
`components/*.html` glob is a parameter holding the files it matches. -/

structure GoTmpl where
  rootName : String
  hasFuncs : Bool
  files : List String
deriving DecidableEq

/-- Models `template.New(name)`. -/
def templateNew (name : String) : GoTmpl := ⟨name, false, []⟩

/-- Models `.Funcs(t.templateFuncs)`: attaches the function library. -/
def GoTmpl.withFuncs (t : GoTmpl) : GoTmpl := { t with hasFuncs := true }

/-- Models `.ParseFS(webFs, patterns...)` with the patterns already
expanded to the files they match, parsed into the template in order. -/
def GoTmpl.parseFiles (t : GoTmpl) (fs : List String) : GoTmpl :=
  { t with files := t.files ++ fs }

/-- Models `.Clone()`: a copy of the parsed template sharing no mutable
state with the original. -/
def GoTmpl.clone (t : GoTmpl) : GoTmpl := t

/-- Models `path.Join` on clean, non-empty segments. -/
def pathJoin (a b : String) : String := a ++ "/" ++ b

def templatesDir : String := "templates"

def componentsDir : String := pathJoin templatesDir "components"

def pagesDir : String := pathJoin templatesDir "pages"

/-- `t.baseTemplate` (templates.go 165-167): the base layout parsed first,
with the function library attached. -/
def baseTemplate : GoTmpl :=
  (templateNew "base.html").withFuncs.parseFiles
    [pathJoin templatesDir (pathJoin "layout" "base.html")]

/-- Models `pageTmpl` (templates.go 186-192), `componentGlob` being the
files matched by `components/*.html`: the already-parsed base layout is
cloned, then the page's own file and every component file are parsed in. -/
def pageTmpl (componentGlob : List String) (fileName : String) : GoTmpl :=
  baseTemplate.clone.parseFiles (pathJoin pagesDir fileName :: componentGlob)

/-- Models `componentTmpl` (templates.go 194-204): a fresh template named
`id` with the function library attached, parsing the required components'
files and then the component's own file. -/
def componentTmpl (id : String) (requiredTemplates : List String) : GoTmpl :=
  let tpls := requiredTemplates.map (fun r => pathJoin componentsDir (r ++ ".html"))
      ++ [pathJoin componentsDir (id ++ ".html")]
  (templateNew id).withFuncs.parseFiles tpls

/-- The template set built by one `parseTemplates` run (templates.go
165-184), keyed by the struct field receiving each compiled template. -/
def parseTemplatesSet (componentGlob : List String) : List (String × GoTmpl) :=
  [("baseTemplate", baseTemplate),
   ("clusterPkgsPageTemplate", pageTmpl componentGlob "clusterpackages.html"),
   ("pkgsPageTmpl", pageTmpl componentGlob "packages.html"),
   ("pkgPageTmpl", pageTmpl componentGlob "package.html"),
   ("pkgDiscussionPageTmpl", pageTmpl componentGlob "discussion.html"),
   ("supportPageTmpl", pageTmpl componentGlob "support.html"),
   ("bootstrapPageTmpl", pageTmpl componentGlob "bootstrap.html"),
   ("kubeconfigPageTmpl", pageTmpl componentGlob "kubeconfig.html"),
   ("settingsPageTmpl", pageTmpl componentGlob "settings.html"),
   ("repositoryPageTmpl", pageTmpl componentGlob "repository.html"),
   ("pkgDetailHeaderTmpl", componentTmpl "pkg-detail-header" ["pkg-detail-btns"]),
   ("pkgConfigInput", componentTmpl "pkg-config-input" ["datalist"]),
   ("pkgUninstallModalTmpl", componentTmpl "pkg-uninstall-modal" []),
   ("toastTmpl", componentTmpl "toast" []),
   ("datalistTmpl", componentTmpl "datalist" []),
   ("pkgDiscussionBadgeTmpl", componentTmpl "discussion-badge" []),
   ("yamlModalTmpl", componentTmpl "yaml-modal" [])]

/-- Claim C8: the base layout is parsed first with the function library
attached; every page template is the clone of the already-parsed base, plus
that page's source file, plus every component file (so any page can
reference any component without per-page declaration); every standalone
component template parses only its listed dependencies and then its own
file; and every entry of the compiled set is one of these three shapes. -/
theorem claim_C8_composition (componentGlob : List String) :
    (baseTemplate.hasFuncs = true ∧
      baseTemplate.files = [pathJoin templatesDir (pathJoin "layout" "base.html")]) ∧
    (∀ fileName, pageTmpl componentGlob fileName
        = ⟨"base.html", true,
            baseTemplate.files ++ pathJoin pagesDir fileName :: componentGlob⟩) ∧
    (∀ fileName g, g ∈ componentGlob → g ∈ (pageTmpl componentGlob fileName).files) ∧
    (∀ id req, componentTmpl id req
        = ⟨id, true, req.map (fun r => pathJoin componentsDir (r ++ ".html"))
            ++ [pathJoin componentsDir (id ++ ".html")]⟩) ∧
    (∀ nt, nt ∈ parseTemplatesSet componentGlob →
      nt.2 = baseTemplate ∨ (∃ f, nt.2 = pageTmpl componentGlob f) ∨
        (∃ i r, nt.2 = componentTmpl i r)) := by
  refine ⟨⟨rfl, rfl⟩, fun fileName => rfl, ?_, fun id req => rfl, ?_⟩
  · intro fileName g hg
    simp only [pageTmpl, GoTmpl.clone, GoTmpl.parseFiles, List.mem_append, List.mem_cons]
    exact Or.inr (Or.inr hg)
  · intro nt h
    simp only [parseTemplatesSet, List.mem_cons, List.not_mem_nil, or_false] at h
    rcases h with rfl | rfl | rfl | rfl | rfl | rfl | rfl | rfl | rfl | rfl | rfl | rfl |
      rfl | rfl | rfl | rfl | rfl
    · exact Or.inl rfl
    · exact Or.inr (Or.inl ⟨_, rfl⟩)
    · exact Or.inr (Or.inl ⟨_, rfl⟩)
    · exact Or.inr (Or.inl ⟨_, rfl⟩)
    · exact Or.inr (Or.inl ⟨_, rfl⟩)
    · exact Or.inr (Or.inl ⟨_, rfl⟩)
    · exact Or.inr (Or.inl ⟨_, rfl⟩)
    · exact Or.inr (Or.inl ⟨_, rfl⟩)
    · exact Or.inr (Or.inl ⟨_, rfl⟩)
    · exact Or.inr (Or.inl ⟨_, rfl⟩)
    · exact Or.inr (Or.inr ⟨_, _, rfl⟩)
    · exact Or.inr (Or.inr ⟨_, _, rfl⟩)
    · exact Or.inr (Or.inr ⟨_, _, rfl⟩)
    · exact Or.inr (Or.inr ⟨_, _, rfl⟩)
    · exact Or.inr (Or.inr ⟨_, _, rfl⟩)
    · exact Or.inr (Or.inr ⟨_, _, rfl⟩)
    · exact Or.inr (Or.inr ⟨_, _, rfl⟩)

/-- Witness for C8 at a concrete two-file component glob: the support page
contains the base layout file, its own page file and both component files;
the `toast` component parses exactly its own file; the `pkgConfigInput`
entry of the set is a component template. -/
theorem claim_C8_witness :
    baseTemplate.hasFuncs = true ∧
    pageTmpl ["templates/components/toast.html", "templates/components/datalist.html"]
        "support.html"
      = ⟨"base.html", true,
          baseTemplate.files ++ pathJoin pagesDir "support.html" ::
            ["templates/components/toast.html", "templates/components/datalist.html"]⟩ ∧
    "templates/components/toast.html" ∈
      (pageTmpl ["templates/components/toast.html", "templates/components/datalist.html"]
        "support.html").files ∧
    componentTmpl "toast" []
      = ⟨"toast", true, [pathJoin componentsDir "toast.html"]⟩ ∧
    (componentTmpl "pkg-config-input" ["datalist"] = baseTemplate ∨
      (∃ f, componentTmpl "pkg-config-input" ["datalist"]
        = pageTmpl ["templates/components/toast.html", "templates/components/datalist.html"] f) ∨
      (∃ i r, componentTmpl "pkg-config-input" ["datalist"] = componentTmpl i r)) := by
  have h := claim_C8_composition
    ["templates/components/toast.html", "templates/components/datalist.html"]
  exact ⟨h.1.1, h.2.1 "support.html",
    h.2.2.1 "support.html" _ (by simp),
    h.2.2.2.1 "toast" [],
    h.2.2.2.2 ("pkgConfigInput", componentTmpl "pkg-config-input" ["datalist"]) (by simp [parseTemplatesSet])⟩

/-! ## In-place rebuild of the shared template set (claim about
`parseTemplates` under concurrent lookups)

`parseTemplates` reassigns the 18 fields of the shared `templates` struct
one after another (`t.templateFuncs = ...` through `t.yamlModalTmpl = ...`)
with no lock and no whole-set swap. Each single assignment stores a value
fully built beforehand (`template.Must(...)` finishes before the store), so
a state is modelled as a map from struct field to the compile cycle that
wrote its current value; a concurrent reader between two assignments reads
that map. -/

/-- The struct fields assigned by `parseTemplates`, in source order. -/
inductive TmplField where
  | templateFuncs | baseTemplate | clusterPkgsPageTemplate | pkgsPageTmpl
  | pkgPageTmpl | pkgDiscussionPageTmpl | supportPageTmpl | bootstrapPageTmpl
  | kubeconfigPageTmpl | settingsPageTmpl | repositoryPageTmpl
  | pkgDetailHeaderTmpl | pkgConfigInput | pkgUninstallModalTmpl | toastTmpl
  | datalistTmpl | pkgDiscussionBadgeTmpl | yamlModalTmpl
deriving DecidableEq

/-- The assignment order of `parseTemplates` (templates.go 84-183). -/
def parseTemplatesAssignOrder : List TmplField :=
  [.templateFuncs, .baseTemplate, .clusterPkgsPageTemplate, .pkgsPageTmpl,
   .pkgPageTmpl, .pkgDiscussionPageTmpl, .supportPageTmpl, .bootstrapPageTmpl,
   .kubeconfigPageTmpl, .settingsPageTmpl, .repositoryPageTmpl,
   .pkgDetailHeaderTmpl, .pkgConfigInput, .pkgUninstallModalTmpl, .toastTmpl,
   .datalistTmpl, .pkgDiscussionBadgeTmpl, .yamlModalTmpl]

/-- One field assignment `t.<f> = <value of cycle>` on the shared struct. -/
def assignField (cycle : Nat) (s : TmplField → Nat) (f : TmplField) : TmplField → Nat :=
  fun g => if g = f then cycle else s g

/-- The struct state a concurrent reader observes after the first `k`
assignments of a recompile cycle have executed. -/
def midCompileState (oldState : TmplField → Nat) (cycle k : Nat) : TmplField → Nat :=
  (parseTemplatesAssignOrder.take k).foldl (assignField cycle) oldState

theorem foldl_assignField (c : Nat) (s : TmplField → Nat) (l : List TmplField)
    (f : TmplField) : l.foldl (assignField c) s f = if f ∈ l then c else s f := by
  induction l generalizing s with
  | nil => simp
  | cons a l ih =>
    rw [List.foldl_cons, ih]
    by_cases hl : f ∈ l
    · simp [hl]
    · by_cases hf : f = a <;> simp [assignField, hl, hf]

/-- Claim C7 counterexample: start from a set fully written by compile
cycle 0 and run the first three assignments of cycle 1. A reader at this
instant finds `baseTemplate` from cycle 1 while `yamlModalTmpl` is still
from cycle 0 — a template set mixing two compile cycles, so lookups
concurrent with `parseTemplates` can observe a partially-populated set. -/
theorem claim_C7_counterexample :
    midCompileState (fun _ => 0) 1 3 TmplField.baseTemplate = 1 ∧
    midCompileState (fun _ => 0) 1 3 TmplField.yamlModalTmpl = 0 := by
  constructor <;> decide

/-- Claim C7 as amended: the set is rebuilt by in-place per-field
assignments, so while a reader never sees a partially-constructed single
template (every field always holds a value written completely by cycle
`c0` or by cycle `c1`), the set as a whole is only uniform again once all
18 assignments have run; in between it can mix the two cycles. -/
theorem claim_C7_amended_field_atomic_set_mixed (c0 c1 k : Nat) (f : TmplField)
    (_hk : k ≤ parseTemplatesAssignOrder.length) :
    (midCompileState (fun _ => c0) c1 k f = c0 ∨
      midCompileState (fun _ => c0) c1 k f = c1) ∧
    (k = parseTemplatesAssignOrder.length →
      midCompileState (fun _ => c0) c1 k f = c1) := by
  constructor
  · rw [midCompileState, foldl_assignField]
    by_cases hf : f ∈ parseTemplatesAssignOrder.take k
    · exact Or.inr (by simp [hf])
    · exact Or.inl (by simp [hf])
  · intro hlen
    rw [midCompileState, foldl_assignField, hlen, List.take_length]
    have hall : f ∈ parseTemplatesAssignOrder := by cases f <;> decide
    simp [hall]

/-- Witness for the amended C7: after all 18 assignments of cycle 1 the
`toastTmpl` field is from cycle 1; mid-cycle it is from cycle 0 or 1. -/
theorem claim_C7_witness :
    (midCompileState (fun _ => 0) 1 3 TmplField.toastTmpl = 0 ∨
      midCompileState (fun _ => 0) 1 3 TmplField.toastTmpl = 1) ∧
    midCompileState (fun _ => 0) 1 18 TmplField.toastTmpl = 1 :=
  ⟨(claim_C7_amended_field_atomic_set_mixed 0 1 3 TmplField.toastTmpl (by decide)).1,
   (claim_C7_amended_field_atomic_set_mixed 0 1 18 TmplField.toastTmpl (by decide)).2
     (by decide)⟩

/-! ## The markdown AST post-processing pass (`ASTTransformer.Transform`,
templates.go 206-224)

`Transform` runs `ast.Walk` over the parsed document with a walker that
returns immediately on exits, sets `target` and `rel` on `*ast.Link`
nodes, sets `class` on `*ast.Blockquote` nodes, leaves every other node
kind alone, and always returns `ast.WalkContinue`. A parsed node is a
kind, an attribute list and a child list. -/

/-- Node kinds as far as the type switch in `Transform` distinguishes
them: links, blockquotes, and everything else (document, paragraphs,
text, ...) collapsed into `other` with a numeric tag. -/
inductive NodeKind where
  | link : NodeKind
  | blockquote : NodeKind
  | other : Nat → NodeKind
deriving DecidableEq

/-- A node of the parsed markdown document tree. -/
inductive MdNode where
  | node (kind : NodeKind) (attrs : List (String × String)) (children : List MdNode)

def MdNode.kind : MdNode → NodeKind
  | .node k _ _ => k

def MdNode.attrs : MdNode → List (String × String)
  | .node _ a _ => a

def MdNode.children : MdNode → List MdNode
  | .node _ _ c => c

/-- Models goldmark's `SetAttributeString`: replace the value of the first
attribute with this name, or append a new attribute at the end. -/
def setAttributeString (attrs : List (String × String)) (name value : String) :
    List (String × String) :=
  match attrs with
  | [] => [(name, value)]
  | (n, v) :: rest =>
    if n = name then (n, value) :: rest
    else (n, v) :: setAttributeString rest name value

/-- The first value bound to an attribute name, as goldmark's attribute
lookup returns it. -/
def getAttr (attrs : List (String × String)) (name : String) : Option String :=
  match attrs with
  | [] => none
  | (n, v) :: rest => if n = name then some v else getAttr rest name

/-- Goldmark's `WalkStatus` values used by `walkHelper`. -/
inductive WalkStatus where
  | cont : WalkStatus
  | skipChildren : WalkStatus
  | stop : WalkStatus
deriving DecidableEq

/-- The walker closure of `ASTTransformer.Transform` (templates.go
209-222), acting on the visited node's kind and attribute list: a
non-entering call returns immediately with `WalkContinue`; on entry a link
gets `target="_blank"` and `rel="noopener noreferrer"`, a blockquote gets
`class="border-start border-primary border-3 ps-2"`, and any other kind is
untouched; the status is always `WalkContinue`. -/
def transformVisit (kind : NodeKind) (attrs : List (String × String))
    (entering : Bool) : List (String × String) × WalkStatus :=
  if !entering then (attrs, .cont)
  else
    match kind with
    | .link =>
      (setAttributeString (setAttributeString attrs "target" "_blank")
        "rel" "noopener noreferrer", .cont)
    | .blockquote =>
      (setAttributeString attrs "class" "border-start border-primary border-3 ps-2",
        .cont)
    | .other _ => (attrs, .cont)

/-- Result of walking one node: the node after the walker's edits, whether
the walk was aborted by `WalkStop`, and the instrumentation trace of
walker invocations (visited kind, entering flag), in call order. -/
structure WalkResult where
  out : MdNode
  stopped : Bool
  trace : List (NodeKind × Bool)

/-- Result of walking a child list. -/
structure WalkListResult where
  out : List MdNode
  stopped : Bool
  trace : List (NodeKind × Bool)

mutual
/-- Models goldmark's `ast.Walk` / `walkHelper` for walkers that edit the
visited node's attributes (the only mutation `Transform` performs): call
the walker on entry; unless it said stop or skip-children, walk the
children in order, aborting if one stops; finally call the walker again on
exit. The trace records every walker invocation. -/
def walkNode (f : NodeKind → List (String × String) → Bool → List (String × String) × WalkStatus) :
    MdNode → WalkResult
  | .node k a cs =>
    let en := f k a true
    if en.2 = .stop then ⟨.node k en.1 cs, true, [(k, true)]⟩
    else if en.2 = .skipChildren then
      let ex := f k en.1 false
      ⟨.node k ex.1 cs, ex.2 == .stop, [(k, true), (k, false)]⟩
    else
      let wr := walkChildren f cs
      if wr.stopped then ⟨.node k en.1 wr.out, true, (k, true) :: wr.trace⟩
      else
        let ex := f k en.1 false
        ⟨.node k ex.1 wr.out, ex.2 == .stop, (k, true) :: wr.trace ++ [(k, false)]⟩

/-- Walk a child list in order, aborting on `WalkStop`. -/
def walkChildren (f : NodeKind → List (String × String) → Bool → List (String × String) × WalkStatus) :
    List MdNode → WalkListResult
  | [] => ⟨[], false, []⟩
  | c :: cs =>
    let r := walkNode f c
    if r.stopped then ⟨r.out :: cs, true, r.trace⟩
    else
      let rs := walkChildren f cs
      ⟨r.out :: rs.out, rs.stopped, r.trace ++ rs.trace⟩
end

/-- `ASTTransformer.Transform` (templates.go 208-224): run the walk over
the document with the attribute-injecting walker and keep the resulting
tree (`ast.Walk`'s error is discarded with `_ =`). -/
def astTransform (doc : MdNode) : MdNode :=
  (walkNode transformVisit doc).out

mutual
/-- What the pass does to a tree, described structurally: every node keeps
its kind and children structure and its attributes go through the entry
transformation once. -/
def attrMap : MdNode → MdNode
  | .node k a cs => .node k (transformVisit k a true).1 (attrMapList cs)

def attrMapList : List MdNode → List MdNode
  | [] => []
  | c :: cs => attrMap c :: attrMapList cs
end

mutual
/-- Preorder listing of every node of a tree. -/
def allNodes : MdNode → List MdNode
  | .node k a cs => .node k a cs :: allNodesList cs

def allNodesList : List MdNode → List MdNode
  | [] => []
  | c :: cs => allNodes c ++ allNodesList cs
end

mutual
/-- The walker-invocation trace the always-continue walker produces. -/
def walkTrace : MdNode → List (NodeKind × Bool)
  | .node k _ cs => (k, true) :: walkTraceList cs ++ [(k, false)]

def walkTraceList : List MdNode → List (NodeKind × Bool)
  | [] => []
  | c :: cs => walkTrace c ++ walkTraceList cs
end

theorem transformVisit_enter_status (k : NodeKind) (a : List (String × String)) :
    (transformVisit k a true).2 = WalkStatus.cont := by
  cases k <;> rfl

theorem transformVisit_exit (k : NodeKind) (a : List (String × String)) :
    transformVisit k a false = (a, WalkStatus.cont) := rfl

mutual
theorem walkNode_transform (n : MdNode) :
    walkNode transformVisit n = ⟨attrMap n, false, walkTrace n⟩ := by
  cases n with
  | node k a cs =>
    have hcs := walkChildren_transform cs
    rw [walkNode, hcs]
    simp [transformVisit_enter_status, transformVisit_exit, attrMap, walkTrace]

theorem walkChildren_transform (l : List MdNode) :
    walkChildren transformVisit l = ⟨attrMapList l, false, walkTraceList l⟩ := by
  cases l with
  | nil => rfl
  | cons c cs =>
    have hc := walkNode_transform c
    have hcs := walkChildren_transform cs
    rw [walkChildren, hc, hcs]
    simp [attrMapList, walkTraceList]
end

theorem getAttr_setAttributeString_same (a : List (String × String)) (n v : String) :
    getAttr (setAttributeString a n v) n = some v := by
  induction a with
  | nil => simp [setAttributeString, getAttr]
  | cons p rest ih =>
    obtain ⟨pn, pv⟩ := p
    by_cases h : pn = n
    · simp [setAttributeString, getAttr, h]
    · simp [setAttributeString, getAttr, h, ih]

theorem getAttr_setAttributeString_ne (a : List (String × String)) (n v n' : String)
    (h : n' ≠ n) : getAttr (setAttributeString a n v) n' = getAttr a n' := by
  induction a with
  | nil =>
    have hne : ¬n = n' := fun hc => h hc.symm
    simp [setAttributeString, getAttr, hne]
  | cons p rest ih =>
    obtain ⟨pn, pv⟩ := p
    by_cases hpn : pn = n
    · subst hpn
      have hne : ¬pn = n' := fun hc => h hc.symm
      simp [setAttributeString, getAttr, hne]
    · simp [setAttributeString, getAttr, hpn, ih]

mutual
theorem walkTrace_enterCount (n : MdNode) :
    ((walkTrace n).filter (fun e => e.2)).length = (allNodes n).length := by
  cases n with
  | node k a cs =>
    have h := walkTraceList_enterCount cs
    rw [walkTrace, allNodes]
    simp [List.filter_append, h]

theorem walkTraceList_enterCount (l : List MdNode) :
    ((walkTraceList l).filter (fun e => e.2)).length = (allNodesList l).length := by
  cases l with
  | nil => rfl
  | cons c cs =>
    have h1 := walkTrace_enterCount c
    have h2 := walkTraceList_enterCount cs
    rw [walkTraceList, allNodesList]
    simp [List.filter_append, h1, h2]
end

mutual
theorem allNodes_attrMap (n : MdNode) :
    (allNodes (attrMap n)).map (fun m => (m.kind, m.attrs))
      = (allNodes n).map (fun m => (m.kind, (transformVisit m.kind m.attrs true).1)) := by
  cases n with
  | node k a cs =>
    have h := allNodesList_attrMapList cs
    rw [attrMap, allNodes, allNodes, List.map_cons, List.map_cons, h]
    rfl

theorem allNodesList_attrMapList (l : List MdNode) :
    (allNodesList (attrMapList l)).map (fun m => (m.kind, m.attrs))
      = (allNodesList l).map (fun m => (m.kind, (transformVisit m.kind m.attrs true).1)) := by
  cases l with
  | nil => rfl
  | cons c cs =>
    have h1 := allNodes_attrMap c
    have h2 := allNodesList_attrMapList cs
    rw [attrMapList, allNodesList, allNodesList]
    simp [List.map_append, h1, h2]
end

/-- Claim C1: on any parsed document, the pass run by
`ASTTransformer.Transform` (i) calls the walker on entry exactly once per
node of the document, (ii) gives every node, in preorder correspondence,
exactly the attribute transformation its kind selects, (iii) leaves every
link with `target="_blank"` and `rel="noopener noreferrer"`, (iv) leaves
every blockquote with `class="border-start border-primary border-3 ps-2"`,
and (v) keeps kind and attributes of a node of any other kind unchanged at
its preorder position. -/
theorem claim_C1_transform_pass (t : MdNode) :
    (((walkNode transformVisit t).trace.filter (fun e => e.2)).length
        = (allNodes t).length) ∧
    ((allNodes (astTransform t)).map (fun m => (m.kind, m.attrs))
        = (allNodes t).map (fun m => (m.kind, (transformVisit m.kind m.attrs true).1))) ∧
    (∀ m, m ∈ allNodes (astTransform t) → m.kind = .link →
      getAttr m.attrs "target" = some "_blank" ∧
      getAttr m.attrs "rel" = some "noopener noreferrer") ∧
    (∀ m, m ∈ allNodes (astTransform t) → m.kind = .blockquote →
      getAttr m.attrs "class" = some "border-start border-primary border-3 ps-2") ∧
    (∀ (i : Nat) (n : MdNode) (tag : Nat), (allNodes t)[i]? = some n →
      n.kind = .other tag →
      ∃ m, (allNodes (astTransform t))[i]? = some m ∧
        m.kind = n.kind ∧ m.attrs = n.attrs) := by
  have hT : astTransform t = attrMap t := by
    show (walkNode transformVisit t).out = attrMap t
    rw [walkNode_transform]
  have hmap := allNodes_attrMap t
  refine ⟨?_, ?_, ?_, ?_, ?_⟩
  · rw [walkNode_transform]
    exact walkTrace_enterCount t
  · rw [hT]
    exact hmap
  · intro m hm hk
    rw [hT] at hm
    have hmem : (m.kind, m.attrs)
        ∈ (allNodes t).map (fun o => (o.kind, (transformVisit o.kind o.attrs true).1)) := by
      rw [← hmap]
      exact List.mem_map_of_mem _ hm
    obtain ⟨o, _, heq⟩ := List.mem_map.mp hmem
    injection heq with hko hao
    rw [hk] at hko
    rw [hko] at hao
    rw [← hao]
    constructor
    · rw [show (transformVisit NodeKind.link o.attrs true).1
          = setAttributeString (setAttributeString o.attrs "target" "_blank")
              "rel" "noopener noreferrer" from rfl]
      rw [getAttr_setAttributeString_ne _ _ _ _ (by decide)]
      exact getAttr_setAttributeString_same _ _ _
    · rw [show (transformVisit NodeKind.link o.attrs true).1
          = setAttributeString (setAttributeString o.attrs "target" "_blank")
              "rel" "noopener noreferrer" from rfl]
      exact getAttr_setAttributeString_same _ _ _
  · intro m hm hk
    rw [hT] at hm
    have hmem : (m.kind, m.attrs)
        ∈ (allNodes t).map (fun o => (o.kind, (transformVisit o.kind o.attrs true).1)) := by
      rw [← hmap]
      exact List.mem_map_of_mem _ hm
    obtain ⟨o, _, heq⟩ := List.mem_map.mp hmem
    injection heq with hko hao
    rw [hk] at hko
    rw [hko] at hao
    rw [← hao]
    rw [show (transformVisit NodeKind.blockquote o.attrs true).1
        = setAttributeString o.attrs "class" "border-start border-primary border-3 ps-2"
        from rfl]
    exact getAttr_setAttributeString_same _ _ _
  · intro i n tag hi hk
    rw [hT]
    have h1 : ((allNodes (attrMap t)).map (fun m => (m.kind, m.attrs)))[i]?
        = ((allNodes t).map (fun m => (m.kind, (transformVisit m.kind m.attrs true).1)))[i]? := by
      rw [hmap]
    rw [List.getElem?_map, List.getElem?_map, hi] at h1
    have h2 : (transformVisit n.kind n.attrs true).1 = n.attrs := by
      rw [hk]
      rfl
    rw [Option.map_some', h2] at h1
    obtain ⟨m, hm1, hm2⟩ := Option.map_eq_some'.mp h1
    obtain ⟨hk1, hk2⟩ := Prod.ext_iff.mp hm2
    exact ⟨m, hm1, hk1, hk2⟩

/-- Witness for C1 at concrete one-node documents of each kind: the
transformed link carries both injected attributes, the transformed
blockquote carries the class, and a node of another kind keeps its
attribute list. -/
theorem claim_C1_witness :
    getAttr (astTransform (MdNode.node .link [] [])).attrs "target" = some "_blank" ∧
    getAttr (astTransform (MdNode.node .link [] [])).attrs "rel"
      = some "noopener noreferrer" ∧
    getAttr (astTransform (MdNode.node .blockquote [] [])).attrs "class"
      = some "border-start border-primary border-3 ps-2" ∧
    (∃ m, (allNodes (astTransform (MdNode.node (.other 0) [("k", "v")] [])))[0]?
        = some m ∧ m.kind = .other 0 ∧ m.attrs = [("k", "v")]) := by
  have elink : astTransform (MdNode.node .link [] [])
      = attrMap (MdNode.node .link [] []) := by
    show (walkNode transformVisit (MdNode.node .link [] [])).out = _
    rw [walkNode_transform]
  have ebq : astTransform (MdNode.node .blockquote [] [])
      = attrMap (MdNode.node .blockquote [] []) := by
    show (walkNode transformVisit (MdNode.node .blockquote [] [])).out = _
    rw [walkNode_transform]
  have hmem1 : astTransform (MdNode.node .link [] [])
      ∈ allNodes (astTransform (MdNode.node .link [] [])) := by
    rw [elink]
    simp [attrMap, attrMapList, allNodes, allNodesList]
  have hkind1 : (astTransform (MdNode.node .link [] [])).kind = NodeKind.link := by
    rw [elink, attrMap]
    rfl
  have hmem2 : astTransform (MdNode.node .blockquote [] [])
      ∈ allNodes (astTransform (MdNode.node .blockquote [] [])) := by
    rw [ebq]
    simp [attrMap, attrMapList, allNodes, allNodesList]
  have hkind2 : (astTransform (MdNode.node .blockquote [] [])).kind
      = NodeKind.blockquote := by
    rw [ebq, attrMap]
    rfl
  have h1 := (claim_C1_transform_pass (MdNode.node .link [] [])).2.2.1
    (astTransform (MdNode.node .link [] [])) hmem1 hkind1
  have h2 := (claim_C1_transform_pass (MdNode.node .blockquote [] [])).2.2.2.1
    (astTransform (MdNode.node .blockquote [] [])) hmem2 hkind2
  have h3 := (claim_C1_transform_pass (MdNode.node (.other 0) [("k", "v")] [])).2.2.2.2
    0 (MdNode.node (.other 0) [("k", "v")] []) 0
    (by simp [allNodes, allNodesList]) rfl
  exact ⟨h1.1, h1.2, h2, h3⟩
